import Mathlib

/-!
Verification of the hdrajs framework core against its specification.

The definitions below are a shallow embedding of the TypeScript sources:
* `src/src/core/application.ts` — the `DIContainer` class (`get`,
  `createInstance`, `clearRequestScope`) and the per-route request handler
  built by `createApp` (parameter binding, pipes, handler invocation,
  exception-filter selection, request-scope cleanup);
* `src/decorators/request.decorator.ts` — parameter metadata and
  `getParameterMetadata`;
* the exception-filter module — `defaultFilter`, `UseFilters`, `getFilters`;
* the validation module — `ValidationPipe`, validation rules,
  `ValidationException`;
* `src/decorators/module.decorator.ts` — `loadModule`;
* the metadata registry written by the decorators (`createRouteDecorator`,
  `UseGuards`, `UseFilters`, `UseMiddleware`).

JavaScript objects that only matter through their identity (provider
instances) are modelled as natural numbers allocated from a counter in the
container state; JavaScript `Map`s are association lists where `set` conses
a binding to the front (lookup finds the newest binding, exactly like a
`Map` overwrite); thrown exceptions are an `Except`-style error component
paired with the (already mutated) state, since a JS `throw` does not roll
back mutations; unbounded recursion is modelled with explicit fuel, where
running out of fuel is a distinct error that is never caught (it stands for
non-termination, not for a JS exception).
-/

/-- Association-list lookup, modelling `Map.get` / `Map.has`.  A `Map.set`
is modelled by consing the new binding on the front, so lookup returns the
newest binding for a key, matching `Map` overwrite semantics. -/
def alookup {α β : Type} [DecidableEq α] : List (α × β) → α → Option β
  | [], _ => none
  | (k, v) :: rest, a => if k = a then some v else alookup rest a

/-- Model of JS `String.prototype.startsWith`: `p` is a prefix of `s`. -/
def jsStartsWith (s p : String) : Bool :=
  List.isPrefixOf p.data s.data

/-- `Scope` enum from the dependency-injection module
(`SINGLETON`/`REQUEST`/`TRANSIENT`). -/
inductive Scope where
  | singleton
  | request
  | transient
deriving DecidableEq, Repr

/-- `Provider` interface from the dependency-injection module:
`{ provide, useClass?, useValue?, useFactory?, inject?, scope? }`.
Provider tokens and instances are modelled as `Nat`; the factory is an
arbitrary function from resolved dependencies to an instance value. -/
structure Provider where
  provide : Nat
  useClass : Option Nat := none
  useValue : Option Nat := none
  useFactory : Option (List Nat → Nat) := none
  inject : List Nat := []
  scope : Option Scope := none

/-- The ambient reflection metadata consulted by `createInstance`:
`design:paramtypes`, `INJECT_METADATA` (per constructor-parameter index),
`OPTIONAL_METADATA`, and the string coercion of a token used to build the
request-cache key `` `${requestId}_${token}` `` and the not-found message. -/
structure World where
  tokenStr : Nat → String
  paramTypes : Nat → List Nat
  injectMeta : Nat → Nat → Option Nat
  optionalMeta : Nat → Nat → Bool

/-- Errors a container resolution can produce: the
`Provider for ... not found` error thrown by `DIContainer.get`, or fuel
exhaustion (standing for non-terminating recursion, e.g. a dependency
cycle). -/
inductive DIErr where
  | notFound (msg : String)
  | fuel
deriving DecidableEq, Repr

/-- The `DIContainer` private state: `providers`, the singleton `instances`
cache (keyed by the raw token), the `requestInstances` cache (keyed by the
string `` `${requestId}_${token}` ``), plus the allocation counter that
models JS object identity of constructed instances. -/
structure St where
  providers : List (Nat × Provider)
  instances : List (Nat × Nat)
  requestInstances : List (String × Nat)
  nextId : Nat

/-- `DIContainer.register`: `this.providers.set(provider.provide, provider)`. -/
def DIContainer.register (p : Provider) (s : St) : St :=
  { s with providers := (p.provide, p) :: s.providers }

/-- Truthiness of the optional `requestId` argument (`undefined` and the
empty string are falsy in JS). -/
def ridTruthy : Option String → Bool
  | none => false
  | some r => r ≠ ""

/-- The request-cache key `` `${requestId}_${token}` ``. -/
def rkey (w : World) (rid : Option String) (token : Nat) : String :=
  rid.getD "" ++ "_" ++ w.tokenStr token

/-- The type of a fuel-level resolver: `DIContainer.get` with the fuel
already fixed, threading the container state. -/
def GetFn : Type :=
  St → Nat → Option String → Except DIErr Nat × St

/-- Resolution of a `useFactory` provider's `inject` list:
`(provider.inject || []).map(dep => this.get(dep, requestId))`.  A thrown
dependency error propagates (there is no catch on this path) with the
state as mutated so far. -/
def resolveDepList (gets : St → Nat → Except DIErr Nat × St) :
    St → List Nat → Except DIErr (List Nat) × St
  | s, [] => (.ok [], s)
  | s, d :: rest =>
    match gets s d with
    | (.ok i, s₁) =>
      match resolveDepList gets s₁ rest with
      | (.ok is, s₂) => (.ok (i :: is), s₂)
      | (.error e, s₂) => (.error e, s₂)
    | (.error e, s₁) => (.error e, s₁)

/-- The dependency loop of `DIContainer.createInstance`: for each
constructor parameter type (with its index), resolve
`injectToken || type`; a caught resolution failure yields `null` when the
parameter is marked optional and re-throws otherwise.  Fuel exhaustion is
never caught (it models non-termination, which JS `catch` cannot observe). -/
def resolveCtorParams (w : World) (gets : St → Nat → Except DIErr Nat × St)
    (target : Nat) :
    St → List Nat → Nat → Except DIErr (List (Option Nat)) × St
  | s, [], _ => (.ok [], s)
  | s, ty :: rest, idx =>
    let tok := (w.injectMeta target idx).getD ty
    let isOpt := w.optionalMeta target idx
    match gets s tok with
    | (.ok dep, s₁) =>
      match resolveCtorParams w gets target s₁ rest (idx + 1) with
      | (.ok deps, s₂) => (.ok (some dep :: deps), s₂)
      | (.error e, s₂) => (.error e, s₂)
    | (.error e, s₁) =>
      match e with
      | .notFound m =>
        if isOpt then
          match resolveCtorParams w gets target s₁ rest (idx + 1) with
          | (.ok deps, s₂) => (.ok (none :: deps), s₂)
          | (.error e₂, s₂) => (.error e₂, s₂)
        else (.error (.notFound m), s₁)
      | .fuel => (.error .fuel, s₁)

/-- One fuel level of `DIContainer.createInstance`: read
`design:paramtypes`, resolve every parameter (optional ones may become
`null`), then `new target(...dependencies)` — construction allocates a
fresh instance identity from the counter. -/
def createInstanceStep (w : World) (prev : GetFn) (rid : Option String)
    (s : St) (target : Nat) : Except DIErr Nat × St :=
  match resolveCtorParams w (fun s' t => prev s' t rid) target s
      (w.paramTypes target) 0 with
  | (.error e, s₁) => (.error e, s₁)
  | (.ok _deps, s₁) => (.ok s₁.nextId, { s₁ with nextId := s₁.nextId + 1 })

/-- The scope-directed cache checks of `DIContainer.get` (application.ts
lines 317-323): a singleton provider reads the singleton cache at the raw
token; a request provider with a truthy request id reads the request cache
at `` `${requestId}_${token}` ``; every other combination reads nothing. -/
def cacheRead (w : World) (s : St) (token : Nat) (p : Provider)
    (rid : Option String) : Option Nat :=
  if p.scope.getD Scope.singleton = Scope.singleton then
    alookup s.instances token
  else if p.scope.getD Scope.singleton = Scope.request ∧ ridTruthy rid then
    alookup s.requestInstances (rkey w rid token)
  else none

/-- The provider-source dispatch of `DIContainer.get` (application.ts
lines 325-336): a defined `useValue` is returned as-is; a `useFactory` is
applied to its resolved `inject` list; otherwise `createInstance` runs on
`useClass || provide`. -/
def buildSource (w : World) (prev : GetFn) (rid : Option String) (s : St)
    (p : Provider) : Except DIErr Nat × St :=
  match p.useValue with
  | some v => (.ok v, s)
  | none =>
    match p.useFactory with
    | some f =>
      match resolveDepList (fun s' d => prev s' d rid) s p.inject with
      | (.ok deps, s₁) => (.ok (f deps), s₁)
      | (.error e, s₁) => (.error e, s₁)
    | none => createInstanceStep w prev rid s (p.useClass.getD p.provide)

/-- The scope-directed cache write of `DIContainer.get` (application.ts
lines 338-343): a built singleton instance is stored at the raw token, a
request instance at `` `${requestId}_${token}` `` when a truthy request id
was supplied, and nothing otherwise (transient, or request without id). -/
def cacheWrite (w : World) (rid : Option String) (token : Nat)
    (p : Provider) : Except DIErr Nat × St → Except DIErr Nat × St
  | (.error e, s₁) => (.error e, s₁)
  | (.ok inst, s₁) =>
    if p.scope.getD Scope.singleton = Scope.singleton then
      (.ok inst, { s₁ with instances := (token, inst) :: s₁.instances })
    else if p.scope.getD Scope.singleton = Scope.request ∧ ridTruthy rid then
      (.ok inst, { s₁ with
        requestInstances := (rkey w rid token, inst) :: s₁.requestInstances })
    else (.ok inst, s₁)

/-- One fuel level of `DIContainer.get` (application.ts lines 307-346):
provider lookup (throwing `Provider for ... not found` when absent), the
scoped cache checks, the `useValue`/`useFactory`/`useClass`/`provide`
source dispatch, and the scoped cache write. -/
def getStep (w : World) (prev : GetFn) (s : St) (token : Nat)
    (rid : Option String) : Except DIErr Nat × St :=
  match alookup s.providers token with
  | none => (.error (.notFound ("Provider for " ++ w.tokenStr token ++ " not found")), s)
  | some p =>
    match cacheRead w s token p rid with
    | some inst => (.ok inst, s)
    | none => cacheWrite w rid token p (buildSource w prev rid s p)

/-- The fuel-indexed resolver: fuel `0` stands for exhausted recursion,
fuel `n+1` runs one step of `DIContainer.get` whose recursive calls use
the fuel-`n` resolver. -/
def resolveFuel (w : World) : Nat → GetFn
  | 0 => fun s _ _ => (.error .fuel, s)
  | fuel + 1 => getStep w (resolveFuel w fuel)

/-- `DIContainer.get(token, requestId?)` with explicit fuel. -/
def DIContainer.get (w : World) (fuel : Nat) (s : St) (token : Nat)
    (rid : Option String) : Except DIErr Nat × St :=
  resolveFuel w fuel s token rid

/-- `DIContainer.createInstance(target, requestId?)` with explicit fuel for
its recursive `get` calls. -/
def DIContainer.createInstance (w : World) (fuel : Nat) (rid : Option String)
    (s : St) (target : Nat) : Except DIErr Nat × St :=
  createInstanceStep w (resolveFuel w fuel) rid s target

/-- `DIContainer.clearRequestScope(requestId)` (application.ts lines
367-374): delete every request-cache entry whose key starts with
`` `${requestId}_` ``. -/
def DIContainer.clearRequestScope (rid : String) (s : St) : St :=
  { s with requestInstances :=
      s.requestInstances.filter (fun kv => ! jsStartsWith kv.1 (rid ++ "_")) }

/-!  The request dispatcher (the per-route async handler installed by
`createApp`, application.ts lines 183-246): parameter extraction, pipes,
handler invocation, response writing, exception-filter selection and
request-scope cleanup.  -/

/-- JavaScript values, as far as the dispatcher and validation observe
them: `undefined`, `null`, primitives, plain objects (own enumerable
properties as an association list) and an opaque function value (what a
property lookup finds on a class prototype). -/
inductive JsValue where
  | undefined
  | null
  | boolV (b : Bool)
  | numV (n : Int)
  | strV (s : String)
  | obj (fields : List (String × JsValue))
  | fnVal

/-- Errors raised during stages 4-5 of a dispatch: a `ValidationException`
(carrying its `errors` list), an `HttpException` (`{ status, message }`),
or any other JS `Error` with a message. -/
inductive JsErr where
  | validationEx (errors : List String)
  | httpEx (status : Nat) (msg : String)
  | jsError (msg : String)
deriving DecidableEq, Repr

/-- The `message` property of a raised error.  A `ValidationException`'s
constructor sets ``super(`Validation failed: ${errors.join(', ')}`)``. -/
def errMessage : JsErr → String
  | .validationEx errors => "Validation failed: " ++ String.intercalate ", " errors
  | .httpEx _ m => m
  | .jsError m => m

/-- What a handler/filter writes to the Express response: `204` empty body,
a JSON body, or the default filter's error object
`{ statusCode, message, error }`. -/
inductive RBody where
  | noContent
  | jsonOut (v : JsValue)
  | errObj (statusCode : Nat) (message : String) (error : String)

/-- A written HTTP response: status plus body. -/
structure HRes where
  status : Nat
  body : RBody

/-- An exception filter `(error, res) => void`, modelled by the response it
writes. -/
def ExceptionFilter : Type := JsErr → HRes

/-- `defaultFilter` from the exception-filter module: always responds
`500` with `{ statusCode: 500, message: 'Internal server error', error:
error.message }`. -/
def defaultFilter : ExceptionFilter := fun e =>
  { status := 500, body := .errObj 500 "Internal server error" (errMessage e) }

/-- Filter selection from the route handler's catch block (application.ts
line 238): `methodFilters[0] || classFilters[0] || globalFilter ||
defaultFilter` (an empty array's `[0]` is `undefined`, hence falsy). -/
def selectFilter (methodFilters classFilters : List ExceptionFilter)
    (globalFilter : Option ExceptionFilter) : ExceptionFilter :=
  match methodFilters with
  | f :: _ => f
  | [] =>
    match classFilters with
    | f :: _ => f
    | [] =>
      match globalFilter with
      | some f => f
      | none => defaultFilter

/-- `ParamType` enum from request.decorator.ts. -/
inductive ParamType where
  | body
  | param
  | query
deriving DecidableEq, Repr

/-- `ParamMetadata` from request.decorator.ts:
`{ index, type, name?, dto? }`.  The `dto` here is an index into the
dispatch context's pipe metadata (it is only ever passed through to pipes
as `metatype`), so it is kept as an opaque `Option Nat` tag. -/
structure ParamMetadata where
  index : Nat
  ptype : ParamType
  name : Option String := none
  dto : Option Nat := none
deriving DecidableEq, Repr

/-- The raw `PARAMS_METADATA` array for one handler: the decorators write
`existingParams[parameterIndex] = …`, producing a sparse array, modelled
as a list of `Option` positions. -/
def ParamsArray : Type := List (Option ParamMetadata)

/-- `getParameterMetadata` (request.decorator.ts lines 42-45): read the
sparse metadata array and `filter(p => p !== undefined)` — the holes are
dropped, compacting the list. -/
def getParameterMetadata (params : ParamsArray) : List ParamMetadata :=
  params.filterMap id

/-- The request object handed to the dispatcher: parsed body, route
parameter map and query parameter map. -/
structure Req where
  body : JsValue
  pathParams : List (String × JsValue)
  queryParams : List (String × JsValue)

/-- Raw value extraction per binding source (the `switch (param.type)` in
the route handler): `req.body`, `req.params[param.name!]`, or
`param.name ? req.query[param.name] : req.query`. -/
def extractParam (req : Req) (p : ParamMetadata) : JsValue :=
  match p.ptype with
  | .body => req.body
  | .param =>
    match p.name with
    | some n => (alookup req.pathParams n).getD .undefined
    | none => .undefined
  | .query =>
    match p.name with
    | some n => (alookup req.queryParams n).getD .undefined
    | none => .obj req.queryParams

/-- The `metadata` argument a pipe's `transform` receives:
`{ type, metatype: param.dto, data: param.name }`. -/
structure PipeMeta where
  ptype : ParamType
  metatype : Option Nat
  data : Option String

/-- A pipe as the dispatcher uses it: `new pipe()` then, when the instance
has a `transform` method, `value = await pipeInstance.transform(value,
meta)`; a pipe without `transform` (or a non-function entry) leaves the
value unchanged. -/
structure Pipe where
  transform : Option (JsValue → PipeMeta → Except JsErr JsValue)

/-- Run all applicable pipes over one extracted value in order. -/
def applyPipes (pipes : List Pipe) (p : ParamMetadata) :
    JsValue → Except JsErr JsValue
  | v =>
    pipes.foldlM
      (fun acc pipe =>
        match pipe.transform with
        | some t => t acc ⟨p.ptype, p.dto, p.name⟩
        | none => pure acc)
      v

/-- Bind one annotated parameter: extract the raw value, then run the
pipes. -/
def bindOne (pipes : List Pipe) (req : Req) (p : ParamMetadata) :
    Except JsErr JsValue :=
  applyPipes pipes p (extractParam req p)

/-- Build the handler argument list (the `Promise.all(params.map(...))` in
the route handler): one bound value per (compacted) parameter-metadata
entry, failing on the first pipe error. -/
def buildArgs (pipes : List Pipe) (req : Req) :
    List ParamMetadata → Except JsErr (List JsValue)
  | [] => .ok []
  | p :: rest =>
    match bindOne pipes req p with
    | .error e => .error e
    | .ok v =>
      match buildArgs pipes req rest with
      | .error e => .error e
      | .ok vs => .ok (v :: vs)

/-- A user handler, modelled by what it returns (or throws) for a given
argument list; a `JsValue.undefined` result is the "no content" sentinel. -/
def Handler : Type := List JsValue → Except JsErr JsValue

/-- Stages 4-5 of a dispatch (the body of the route handler's `try`):
compute the compacted parameter metadata, bind the arguments through the
pipes, and invoke the handler on them. -/
def dispatchAttempt (params : ParamsArray) (pipes : List Pipe)
    (handler : Handler) (req : Req) : Except JsErr JsValue :=
  match buildArgs pipes req (getParameterMetadata params) with
  | .error e => .error e
  | .ok args => handler args

/-- The per-route request handler built by `createApp` (application.ts
lines 183-246): run stages 4-5; on success respond `204` (for the
`undefined` sentinel) or `200` with the JSON result; on a raised error run
exactly the selected exception filter; in all cases, finally evict the
request-scope cache for this dispatch's request id. -/
def routeHandlerRun (methodFilters classFilters : List ExceptionFilter)
    (globalFilter : Option ExceptionFilter) (params : ParamsArray)
    (pipes : List Pipe) (handler : Handler) (req : Req) (rid : String)
    (s : St) : HRes × St :=
  match dispatchAttempt params pipes handler req with
  | .ok v =>
    (match v with
     | .undefined => { status := 204, body := .noContent }
     | v => { status := 200, body := .jsonOut v },
     DIContainer.clearRequestScope rid s)
  | .error e =>
    (selectFilter methodFilters classFilters globalFilter e,
     DIContainer.clearRequestScope rid s)

/-!  The validation module: rules, the metadata written by the validation
decorators, and `ValidationPipe`.  -/

/-- Result of `rule.validate(value)`: a boolean, or a failure-message
string (the source's `boolean | string` union, where rules are written as
`cond || 'message'`). -/
inductive RuleRes where
  | boolR (b : Bool)
  | strR (s : String)

/-- A validation rule, modelled by its `validate` function. -/
def ValidationRule : Type := JsValue → RuleRes

/-- `IsRequired`: `value !== undefined && value !== null && value !== ''
|| 'Field is required'`. -/
def IsRequired : ValidationRule := fun v =>
  match v with
  | .undefined => .strR "Field is required"
  | .null => .strR "Field is required"
  | .strV s => if s = "" then .strR "Field is required" else .boolR true
  | _ => .boolR true

/-- `IsString`: `typeof value === 'string' || 'Value must be a string'`. -/
def IsString : ValidationRule := fun v =>
  match v with
  | .strV _ => .boolR true
  | _ => .strR "Value must be a string"

/-- A user-defined class as `ValidationPipe` observes it: the own property
names of its prototype (always containing `"constructor"`, plus any
methods — note that plain field declarations do not appear here), the
`VALIDATION_METADATA` rule lists attached per property key by the
validation decorators, and the own properties a plain `new cls()` instance
starts with. -/
structure ClassShape where
  protoProps : List String
  rules : List (String × List ValidationRule)
  fieldInit : List (String × JsValue)

/-- A `metatype` as passed to `ValidationPipe.transform`: one of the
primitive constructors in the pipe's skip list, or a user-defined class. -/
inductive Metatype where
  | mString
  | mBoolean
  | mNumber
  | mArray
  | mObject
  | userClass (c : ClassShape)

/-- `ValidationPipe.toValidate`: validate only metatypes that are not in
`[String, Boolean, Number, Array, Object]`. -/
def ValidationPipe.toValidate : Metatype → Bool
  | .userClass _ => true
  | _ => false

/-- Own enumerable properties of a plain value (what `Object.assign`
copies from it): the fields of an object, nothing for primitives. -/
def ownProps : JsValue → List (String × JsValue)
  | .obj fields => fields
  | _ => []

/-- `ValidationPipe.plainToClass`: `const instance = new cls();
Object.assign(instance, plain)` — the copied properties shadow the
constructor-initialized ones. -/
def ValidationPipe.plainToClass (c : ClassShape) (plain : JsValue) :
    List (String × JsValue) :=
  ownProps plain ++ c.fieldInit

/-- JS property read `object[propertyKey]` on a class instance: an own
property, else a prototype property (an opaque function value for methods
and `constructor`), else `undefined`. -/
def readProp (c : ClassShape) (inst : List (String × JsValue))
    (key : String) : JsValue :=
  match alookup inst key with
  | some v => v
  | none => if c.protoProps.contains key then .fnVal else .undefined

/-- `ValidationPipe.validate`: iterate
`Object.getOwnPropertyNames(prototype.constructor.prototype)`, skip
`"constructor"`, and for each remaining key run its attached rules on
`object[propertyKey]`, collecting `` `${propertyKey}: ${result}` `` for
every rule that returned a string. -/
def ValidationPipe.validate (c : ClassShape)
    (inst : List (String × JsValue)) : List String :=
  c.protoProps.foldl
    (fun errors key =>
      if key = "constructor" then errors
      else
        errors ++
          ((alookup c.rules key).getD []).filterMap
            (fun rule =>
              match rule (readProp c inst key) with
              | .strR s => some (key ++ ": " ++ s)
              | .boolR _ => none))
    []

/-- `ValidationPipe.transform(value, metadata)`: skip when there is no
metatype or it is a primitive constructor; otherwise copy the input onto a
fresh instance, run `validate`, and throw a `ValidationException` carrying
the whole error list when it is non-empty. -/
def ValidationPipe.transform (value : JsValue) (metatype : Option Metatype) :
    Except JsErr JsValue :=
  match metatype with
  | some (.userClass c) =>
    let object := ValidationPipe.plainToClass c value
    let errors := ValidationPipe.validate c object
    if errors = [] then .ok (.obj object) else .error (.validationEx errors)
  | _ => .ok value

/-!  The module loader (`loadModule` in module.decorator.ts) and the module
handling at the top of `createApp` (application.ts lines 106-117).  -/

/-- `ModuleMetadata` from module.decorator.ts:
`{ imports?, controllers?, providers? }` (absent lists behave as empty).
Modules, controllers and providers are identified by `Nat` tags. -/
structure ModuleMetadata where
  imports : List Nat := []
  controllers : List Nat := []
  providers : List Nat := []

/-- The metadata environment mapping each module class to its `@Module`
metadata. -/
structure ModuleWorld where
  moduleMeta : Nat → ModuleMetadata

/-- The process-wide registries `globalThis.controllers` and
`globalThis.providers`. -/
structure Registry where
  controllers : List Nat
  providers : List Nat

/-- One fuel level of `loadModule` (module.decorator.ts lines 21-44):
recursively load every import first, then append the module's own
controllers and providers to the global registries.  There is no visited
set. -/
def loadModuleStep (mw : ModuleWorld) (prevLoad : Nat → Registry → Registry)
    (m : Nat) (g : Registry) : Registry :=
  let metadata := mw.moduleMeta m
  let g₁ := metadata.imports.foldl (fun acc im => prevLoad im acc) g
  let g₂ := { g₁ with controllers := g₁.controllers ++ metadata.controllers }
  { g₂ with providers := g₂.providers ++ metadata.providers }

/-- The fuel-indexed module loader (fuel bounds the import-graph depth; a
cyclic graph would not terminate in JS either). -/
def loadModuleFuel (mw : ModuleWorld) : Nat → Nat → Registry → Registry
  | 0 => fun _ g => g
  | fuel + 1 => loadModuleStep mw (loadModuleFuel mw fuel)

/-- `loadModule(module)` with explicit fuel. -/
def loadModule (mw : ModuleWorld) (fuel : Nat) (m : Nat) (g : Registry) :
    Registry :=
  loadModuleFuel mw fuel m g

/-- The module handling in `createApp` (application.ts lines 106-117):
`loadModule` every import of the root module, then append the root
module's own controllers and providers to the global registries. -/
def createAppLoadModules (mw : ModuleWorld) (fuel : Nat) (rootMod : Nat)
    (g : Registry) : Registry :=
  let metadata := mw.moduleMeta rootMod
  let g₁ := metadata.imports.foldl (fun acc im => loadModule mw fuel im acc) g
  let g₂ := { g₁ with controllers := g₁.controllers ++ metadata.controllers }
  { g₂ with providers := g₂.providers ++ metadata.providers }

/-!  The declaration-site metadata registry written by the decorators
(`createRouteDecorator`, `UseGuards`, `UseFilters`, `UseMiddleware`),
backed by `Reflect.defineMetadata` / `Reflect.getMetadata`.  -/

/-- The distinct metadata keys the route-related decorators use:
`ROUTES_KEY = Symbol('routes')`, `'guards'`, `'exception_filter'`,
`'middleware'`, `'pipes'` — all pairwise distinct. -/
inductive MetaKey where
  | routesKey
  | guardsKey
  | filtersKey
  | middlewareKey
  | pipesKey
deriving DecidableEq, Repr

/-- One entry of a controller's route table:
`{ method, path, handler: propertyKey }`. -/
structure RouteEntry where
  method : String
  path : String
  handler : String
deriving DecidableEq, Repr

/-- A stored metadata value: a route table, or a list of functions
(guards / filters / middleware / pipes, identified by `Nat` tags). -/
inductive MetaVal where
  | routesV (rs : List RouteEntry)
  | fnsV (fs : List Nat)
deriving DecidableEq, Repr

/-- The reflect-metadata store: a map from (metadata key, target class,
optional property key) to the stored value.  `defineMetadata` overwrites
any previous value under the same triple. -/
structure MetaStore where
  entries : List ((MetaKey × Nat × Option String) × MetaVal)

/-- `Reflect.defineMetadata(key, value, target[, propertyKey])`. -/
def defineMetadata (k : MetaKey) (v : MetaVal) (target : Nat)
    (propertyKey : Option String) (st : MetaStore) : MetaStore :=
  { entries := ((k, target, propertyKey), v) :: st.entries }

/-- `Reflect.getMetadata(key, target[, propertyKey])`. -/
def getMetadata (k : MetaKey) (target : Nat) (propertyKey : Option String)
    (st : MetaStore) : Option MetaVal :=
  alookup st.entries (k, target, propertyKey)

/-- Applying a route decorator produced by `createRouteDecorator(method)`
to `(path)` on `(target, propertyKey)` (method.decorator.ts lines 4-15):
initialize the class's route array if absent, push
`{ method, path, handler }`, and store it back. -/
def routeDecoratorApply (method path : String) (target : Nat)
    (propertyKey : String) (st : MetaStore) : MetaStore :=
  let routes :=
    match getMetadata .routesKey target none st with
    | some (.routesV rs) => rs
    | _ => []
  defineMetadata .routesKey
    (.routesV (routes ++ [⟨method, path, propertyKey⟩])) target none st

/-- Read a controller's accumulated route table. -/
def getRoutes (target : Nat) (st : MetaStore) : List RouteEntry :=
  match getMetadata .routesKey target none st with
  | some (.routesV rs) => rs
  | _ => []

/-- `UseGuards(...guards)` applied to a class (`propertyKey = none`) or a
method (controller.decorator.ts lines 12-22): a single `defineMetadata`
of the given guard list. -/
def UseGuards (guards : List Nat) (target : Nat)
    (propertyKey : Option String) (st : MetaStore) : MetaStore :=
  defineMetadata .guardsKey (.fnsV guards) target propertyKey st

/-- `getGuards(target[, propertyKey])`: the stored list, else `[]`. -/
def getGuards (target : Nat) (propertyKey : Option String)
    (st : MetaStore) : List Nat :=
  match getMetadata .guardsKey target propertyKey st with
  | some (.fnsV gs) => gs
  | _ => []

/-- `UseFilters(...filters)` from the exception-filter module (lines
39-47): same overwrite shape as `UseGuards`, under
`EXCEPTION_FILTER_METADATA`. -/
def UseFilters (filters : List Nat) (target : Nat)
    (propertyKey : Option String) (st : MetaStore) : MetaStore :=
  defineMetadata .filtersKey (.fnsV filters) target propertyKey st

/-- `getFilters(target[, propertyKey])`. -/
def getFilters (target : Nat) (propertyKey : Option String)
    (st : MetaStore) : List Nat :=
  match getMetadata .filtersKey target propertyKey st with
  | some (.fnsV fs) => fs
  | _ => []

/-- `UseMiddleware(...middleware)` from the middleware module: same
overwrite shape, under `MIDDLEWARE_METADATA`. -/
def UseMiddleware (middleware : List Nat) (target : Nat)
    (propertyKey : Option String) (st : MetaStore) : MetaStore :=
  defineMetadata .middlewareKey (.fnsV middleware) target propertyKey st

/-- `getMiddleware(target[, propertyKey])`. -/
def getMiddleware (target : Nat) (propertyKey : Option String)
    (st : MetaStore) : List Nat :=
  match getMetadata .middlewareKey target propertyKey st with
  | some (.fnsV ms) => ms
  | _ => []

/-!  Concrete fixtures used by witnesses and counterexamples.  -/

/-- Boolean test for the `undefined` sentinel (JS `value === undefined`). -/
def isUndefined : JsValue → Bool
  | .undefined => true
  | _ => false

/-- A reflection world with a single zero-argument constructible token `0`
(its `design:paramtypes` list is empty, so every constructor dependency is
trivially resolvable). -/
def w0 : World :=
  ⟨fun _ => "T0", fun _ => [], fun _ _ => none, fun _ _ => false⟩

/-- A request-scoped class provider for token `0`. -/
def pReq0 : Provider :=
  { provide := 0, useClass := some 0, scope := some Scope.request }

/-- A container state holding only the request-scoped provider for token
`0`. -/
def stReq0 : St := ⟨[(0, pReq0)], [], [], 0⟩

/-- The empty container state. -/
def st0 : St := ⟨[], [], [], 0⟩

/-- The `TestUserDto` shape from the repository's integration test: two
plain field declarations `name` and `email` carrying validation rules.
Plain fields do not appear among the prototype's own property names, which
hold only `"constructor"`. -/
def testUserDto : ClassShape :=
  ⟨["constructor"],
   [("name", [IsRequired, IsString]), ("email", [IsRequired])],
   []⟩

/-- A module world with a diamond import graph: root `0` imports `1` and
`2`, which both import the shared module `3`; module `3` declares
controller `8` and provider `7`. -/
def diamondWorld : ModuleWorld :=
  ⟨fun m =>
    if m = 0 then { imports := [1, 2] }
    else if m = 1 then { imports := [3] }
    else if m = 2 then { imports := [3] }
    else if m = 3 then { controllers := [8], providers := [7] }
    else {}⟩

/-- Parameter metadata with a gap: positions `0` and `2` are annotated
(`@Body()` and `@Param('id')`), position `1` carries no binding
annotation. -/
def gapParams : ParamsArray :=
  [some ⟨0, .body, none, none⟩, none, some ⟨2, .param, some "id", none⟩]

/-- A request with body `"B"` and route parameter `id = "42"`. -/
def gapReq : Req := ⟨.strV "B", [("id", .strV "42")], []⟩

/-- A pipe raising a `ValidationException` with two field violations, as
`ValidationPipe.transform` does for a failing shape. -/
def failingValidationPipe : Pipe :=
  ⟨some fun _ _ =>
    .error (.validationEx
      ["name: Field is required", "email: Value must be a valid email"])⟩

/-- How a container resolution may change the state: the provider table is
untouched, the allocation counter only grows, a singleton-cache entry only
changes at tokens whose registered provider has (effective) singleton
scope, and a request-cache entry only changes at keys of the form
`` `${requestId}_${token}` `` for the request id of this resolution (for a
resolution without a request id the request cache is untouched). -/
def Evolves (w : World) (rid : Option String) (s s' : St) : Prop :=
  s'.providers = s.providers ∧
  s.nextId ≤ s'.nextId ∧
  (∀ k, alookup s'.instances k ≠ alookup s.instances k →
    ∃ q, alookup s.providers k = some q ∧
      q.scope.getD Scope.singleton = Scope.singleton) ∧
  (match rid with
   | none => s'.requestInstances = s.requestInstances
   | some r =>
     ∀ k, alookup s'.requestInstances k ≠ alookup s.requestInstances k →
       ∃ d, k = r ++ "_" ++ w.tokenStr d)

/-!  General lemmas about the association-list maps and cache-key
strings.  -/

theorem alookup_nil {α β : Type} [DecidableEq α] (a : α) :
    alookup ([] : List (α × β)) a = none := rfl

theorem alookup_cons {α β : Type} [DecidableEq α] (k : α) (v : β)
    (l : List (α × β)) (a : α) :
    alookup ((k, v) :: l) a = if k = a then some v else alookup l a := rfl

theorem alookup_filter_eq_none {α β : Type} [DecidableEq α]
    (l : List (α × β)) (pred : α × β → Bool) (a : α)
    (h : ∀ v : β, pred (a, v) = false) :
    alookup (l.filter pred) a = none := by
  induction l with
  | nil => rfl
  | cons kv rest ih =>
    obtain ⟨k, v⟩ := kv
    by_cases hk : k = a
    · subst hk
      simp only [List.filter, h v]
      exact ih
    · simp only [List.filter]
      cases hpred : pred (k, v) with
      | false => exact ih
      | true => simpa [alookup_cons, hk] using ih

theorem jsStartsWith_key (r x : String) :
    jsStartsWith (r ++ "_" ++ x) (r ++ "_") = true := by
  simp only [jsStartsWith, String.data_append]
  rw [List.isPrefixOf_iff_prefix]
  exact ⟨x.data, by simp⟩

theorem append_underscore_inj (a : List Char) :
    ∀ b c d : List Char, '_' ∉ a → '_' ∉ b →
      a ++ '_' :: c = b ++ '_' :: d → a = b := by
  induction a with
  | nil =>
    intro b c d _ hb h
    cases b with
    | nil => rfl
    | cons y ys =>
      simp only [List.nil_append, List.cons_append, List.cons.injEq] at h
      exact absurd (List.mem_cons_self y ys) (h.1 ▸ hb)
  | cons x xs ih =>
    intro b c d ha hb h
    cases b with
    | nil =>
      simp only [List.cons_append, List.nil_append, List.cons.injEq] at h
      exact absurd (List.mem_cons_self x xs) (h.1.symm ▸ ha)
    | cons y ys =>
      simp only [List.cons_append, List.cons.injEq] at h
      have hx : '_' ∉ xs := fun hm => ha (List.mem_cons_of_mem x hm)
      have hy : '_' ∉ ys := fun hm => hb (List.mem_cons_of_mem y hm)
      rw [h.1, ih ys c d hx hy h.2]

theorem key_rid_inj (w : World) (r1 r2 : String) (t d : Nat)
    (hu1 : '_' ∉ r1.data) (hu2 : '_' ∉ r2.data)
    (h : r1 ++ "_" ++ w.tokenStr t = r2 ++ "_" ++ w.tokenStr d) :
    r1 = r2 := by
  have hd := congrArg String.data h
  simp only [String.data_append] at hd
  have : r1.data ++ '_' :: (w.tokenStr t).data
      = r2.data ++ '_' :: (w.tokenStr d).data := by
    simpa using hd
  have := append_underscore_inj r1.data r2.data _ _ hu1 hu2 this
  cases r1; cases r2; exact congrArg String.mk this

/-!  The state-evolution invariant of container resolution.  -/

theorem evolves_refl (w : World) (rid : Option String) (s : St) :
    Evolves w rid s s := by
  refine ⟨rfl, Nat.le_refl _, fun k hk => absurd rfl hk, ?_⟩
  cases rid with
  | none => rfl
  | some r => exact fun k hk => absurd rfl hk

theorem evolves_trans (w : World) (rid : Option String) {s t u : St}
    (h1 : Evolves w rid s t) (h2 : Evolves w rid t u) : Evolves w rid s u := by
  obtain ⟨hp1, hn1, hi1, hr1⟩ := h1
  obtain ⟨hp2, hn2, hi2, hr2⟩ := h2
  refine ⟨hp2.trans hp1, hn1.trans hn2, ?_, ?_⟩
  · intro k hk
    by_cases he : alookup u.instances k = alookup t.instances k
    · exact hi1 k (fun h => hk (he.trans h))
    · obtain ⟨q, hq, hsc⟩ := hi2 k he
      exact ⟨q, hp1 ▸ hq, hsc⟩
  · cases rid with
    | none =>
      simp only at hr1 hr2 ⊢
      exact hr2.trans hr1
    | some r =>
      simp only at hr1 hr2 ⊢
      intro k hk
      by_cases he : alookup u.requestInstances k = alookup t.requestInstances k
      · exact hr1 k (fun h => hk (he.trans h))
      · exact hr2 k he

theorem evolves_nextId_bump (w : World) (rid : Option String) (s : St) :
    Evolves w rid s { s with nextId := s.nextId + 1 } := by
  refine ⟨rfl, Nat.le_succ _, fun k hk => absurd rfl hk, ?_⟩
  cases rid with
  | none => rfl
  | some r => exact fun k hk => absurd rfl hk

theorem evolves_instances_insert (w : World) (rid : Option String)
    (s₁ : St) (t inst : Nat) (q : Provider)
    (hq : alookup s₁.providers t = some q)
    (hsc : q.scope.getD Scope.singleton = Scope.singleton) :
    Evolves w rid s₁ { s₁ with instances := (t, inst) :: s₁.instances } := by
  refine ⟨rfl, Nat.le_refl _, ?_, ?_⟩
  · intro k hk
    simp only [alookup_cons] at hk
    by_cases ht : t = k
    · subst ht; exact ⟨q, hq, hsc⟩
    · rw [if_neg ht] at hk; exact absurd rfl hk
  · cases rid with
    | none => rfl
    | some r => exact fun k hk => absurd rfl hk

theorem evolves_request_insert (w : World) (r : String) (s₁ : St)
    (t inst : Nat) :
    Evolves w (some r) s₁
      { s₁ with requestInstances :=
          (r ++ "_" ++ w.tokenStr t, inst) :: s₁.requestInstances } := by
  refine ⟨rfl, Nat.le_refl _, fun k hk => absurd rfl hk, ?_⟩
  intro k hk
  simp only [alookup_cons] at hk
  by_cases hkey : (r ++ "_" ++ w.tokenStr t) = k
  · exact ⟨t, hkey.symm⟩
  · rw [if_neg hkey] at hk; exact absurd rfl hk

theorem evolves_resolveDepList (w : World) (rid : Option String)
    (gets : St → Nat → Except DIErr Nat × St)
    (hg : ∀ s d, Evolves w rid s (gets s d).2) :
    ∀ (ds : List Nat) (s : St), Evolves w rid s (resolveDepList gets s ds).2 := by
  intro ds
  induction ds with
  | nil => intro s; exact evolves_refl w rid s
  | cons d rest ih =>
    intro s
    simp only [resolveDepList]
    rcases hgd : gets s d with ⟨res, s₁⟩
    have h1 : Evolves w rid s s₁ := by
      have := hg s d; rw [hgd] at this; exact this
    cases res with
    | error e => exact h1
    | ok i =>
      rcases hrest : resolveDepList gets s₁ rest with ⟨res2, s₂⟩
      have h2 : Evolves w rid s₁ s₂ := by
        have := ih s₁; rw [hrest] at this; exact this
      show Evolves w rid s
        ((match resolveDepList gets s₁ rest with
          | (.ok is, s₂) => ((.ok (i :: is) : Except DIErr (List Nat)), s₂)
          | (.error e, s₂) => (.error e, s₂)).2)
      rw [hrest]
      cases res2 with
      | ok is => exact evolves_trans w rid h1 h2
      | error e => exact evolves_trans w rid h1 h2

theorem evolves_resolveCtorParams (w : World) (rid : Option String)
    (gets : St → Nat → Except DIErr Nat × St) (target : Nat)
    (hg : ∀ s d, Evolves w rid s (gets s d).2) :
    ∀ (tys : List Nat) (idx : Nat) (s : St),
      Evolves w rid s (resolveCtorParams w gets target s tys idx).2 := by
  intro tys
  induction tys with
  | nil => intro idx s; exact evolves_refl w rid s
  | cons ty rest ih =>
    intro idx s
    simp only [resolveCtorParams]
    rcases hgd : gets s ((w.injectMeta target idx).getD ty) with ⟨res, s₁⟩
    have h1 : Evolves w rid s s₁ := by
      have := hg s ((w.injectMeta target idx).getD ty); rw [hgd] at this
      exact this
    have hcont : ∀ s₁ : St, Evolves w rid s s₁ →
        Evolves w rid s
          ((fun cont : Except DIErr (List (Option Nat)) × St =>
            cont.2) (resolveCtorParams w gets target s₁ rest (idx + 1))) := by
      intro s₁ h1
      have := ih (idx + 1) s₁
      exact evolves_trans w rid h1 this
    cases res with
    | ok dep =>
      rcases hrest : resolveCtorParams w gets target s₁ rest (idx + 1)
        with ⟨res2, s₂⟩
      have h2 : Evolves w rid s s₂ := by
        have := hcont s₁ h1; rw [hrest] at this; exact this
      show Evolves w rid s
        ((match resolveCtorParams w gets target s₁ rest (idx + 1) with
          | (.ok deps, s₂) =>
            ((.ok (some dep :: deps) : Except DIErr (List (Option Nat))), s₂)
          | (.error e, s₂) => (.error e, s₂)).2)
      rw [hrest]
      cases res2 with
      | ok deps => exact h2
      | error e => exact h2
    | error e =>
      cases e with
      | fuel => exact h1
      | notFound m =>
        show Evolves w rid s
          ((if w.optionalMeta target idx = true then
              match resolveCtorParams w gets target s₁ rest (idx + 1) with
              | (.ok deps, s₂) =>
                ((.ok (none :: deps) : Except DIErr (List (Option Nat))), s₂)
              | (.error e₂, s₂) => (.error e₂, s₂)
            else ((.error (.notFound m) : Except DIErr (List (Option Nat))), s₁)).2)
        by_cases hopt : w.optionalMeta target idx = true
        · rw [if_pos hopt]
          rcases hrest : resolveCtorParams w gets target s₁ rest (idx + 1)
            with ⟨res2, s₂⟩
          have h2 : Evolves w rid s s₂ := by
            have := hcont s₁ h1; rw [hrest] at this; exact this
          cases res2 with
          | ok deps => exact h2
          | error e₂ => exact h2
        · rw [if_neg hopt]
          exact h1

theorem evolves_createInstanceStep (w : World) (rid : Option String)
    (prev : GetFn)
    (hg : ∀ s t, Evolves w rid s (prev s t rid).2) (s : St) (target : Nat) :
    Evolves w rid s (createInstanceStep w prev rid s target).2 := by
  simp only [createInstanceStep]
  rcases hrc : resolveCtorParams w (fun s' t => prev s' t rid) target s
      (w.paramTypes target) 0 with ⟨res, s₁⟩
  have h1 : Evolves w rid s s₁ := by
    have := evolves_resolveCtorParams w rid (fun s' t => prev s' t rid) target
      (fun s' d => hg s' d) (w.paramTypes target) 0 s
    rw [hrc] at this; exact this
  cases res with
  | error e => exact h1
  | ok deps => exact evolves_trans w rid h1 (evolves_nextId_bump w rid s₁)

theorem createInstanceStep_fresh (w : World) (rid : Option String)
    (prev : GetFn)
    (hg : ∀ s t, Evolves w rid s (prev s t rid).2) (s : St) (target : Nat)
    (i : Nat) (s' : St)
    (h : createInstanceStep w prev rid s target = (.ok i, s')) :
    s.nextId ≤ i ∧ s'.nextId = i + 1 ∧ Evolves w rid s s' := by
  simp only [createInstanceStep] at h
  rcases hrc : resolveCtorParams w (fun s' t => prev s' t rid) target s
      (w.paramTypes target) 0 with ⟨res, s₁⟩
  have h1 : Evolves w rid s s₁ := by
    have := evolves_resolveCtorParams w rid (fun s' t => prev s' t rid) target
      (fun s' d => hg s' d) (w.paramTypes target) 0 s
    rw [hrc] at this; exact this
  rw [hrc] at h
  cases res with
  | error e => simp at h
  | ok deps =>
    simp only [Prod.mk.injEq, Except.ok.injEq] at h
    obtain ⟨hi, hs⟩ := h
    subst hi
    refine ⟨h1.2.1, ?_, ?_⟩
    · rw [← hs]
    · rw [← hs]
      exact evolves_trans w rid h1 (evolves_nextId_bump w rid s₁)

theorem evolves_cacheWrite (w : World) (rid : Option String) (s : St)
    (token : Nat) (p : Provider) (hp : alookup s.providers token = some p)
    (r : Except DIErr Nat × St) (hEv : Evolves w rid s r.2) :
    Evolves w rid s (cacheWrite w rid token p r).2 := by
  rcases r with ⟨res, s₁⟩
  cases res with
  | error e => exact hEv
  | ok inst =>
    simp only [cacheWrite]
    by_cases h1 : p.scope.getD Scope.singleton = Scope.singleton
    · rw [if_pos h1]
      refine evolves_trans w rid hEv
        (evolves_instances_insert w rid s₁ token inst p ?_ h1)
      rw [hEv.1]; exact hp
    · rw [if_neg h1]
      by_cases h2 : p.scope.getD Scope.singleton = Scope.request ∧ ridTruthy rid
      · rw [if_pos h2]
        obtain ⟨hsc, hrt⟩ := h2
        cases rid with
        | none => simp [ridTruthy] at hrt
        | some r' =>
          exact evolves_trans w (some r') hEv
            (evolves_request_insert w r' s₁ token inst)
      · rw [if_neg h2]
        exact hEv

theorem evolves_buildSource (w : World) (prev : GetFn)
    (hg : ∀ s t r, Evolves w r s (prev s t r).2) (rid : Option String)
    (s : St) (p : Provider) :
    Evolves w rid s (buildSource w prev rid s p).2 := by
  simp only [buildSource]
  rcases p.useValue with _ | v
  · rcases p.useFactory with _ | f
    · exact evolves_createInstanceStep w rid prev
        (fun s' t' => hg s' t' rid) s (p.useClass.getD p.provide)
    · rcases hdl : resolveDepList (fun s' d => prev s' d rid) s p.inject
        with ⟨res, s₁⟩
      have hEv : Evolves w rid s s₁ := by
        have := evolves_resolveDepList w rid (fun s' d => prev s' d rid)
          (fun s' d => hg s' d rid) p.inject s
        rw [hdl] at this; exact this
      cases res with
      | error e => exact hEv
      | ok deps => exact hEv
  · exact evolves_refl w rid s

theorem evolves_getStep (w : World) (prev : GetFn)
    (hg : ∀ s t r, Evolves w r s (prev s t r).2) :
    ∀ (s : St) (t : Nat) (rid : Option String),
      Evolves w rid s (getStep w prev s t rid).2 := by
  intro s t rid
  simp only [getStep]
  rcases hp : alookup s.providers t with _ | p
  · exact evolves_refl w rid s
  · show Evolves w rid s
      ((match cacheRead w s t p rid with
        | some inst => ((.ok inst : Except DIErr Nat), s)
        | none => cacheWrite w rid t p (buildSource w prev rid s p)).2)
    rcases hc : cacheRead w s t p rid with _ | inst
    · exact evolves_cacheWrite w rid s t p hp _
        (evolves_buildSource w prev hg rid s p)
    · exact evolves_refl w rid s

theorem get_evolves (w : World) :
    ∀ (fuel : Nat) (s : St) (t : Nat) (rid : Option String),
      Evolves w rid s (DIContainer.get w fuel s t rid).2 := by
  intro fuel
  induction fuel with
  | zero => intro s t rid; exact evolves_refl w rid s
  | succ n ih =>
    intro s t rid
    exact evolves_getStep w (resolveFuel w n) (fun s' t' r' => ih s' t' r') s t rid

/-!  Path characterizations of `DIContainer.get` used by the scope
claims.  -/

theorem get_unregistered (w : World) (n : Nat) (s : St) (t : Nat)
    (rid : Option String) (h : alookup s.providers t = none) :
    DIContainer.get w (n + 1) s t rid
      = (.error (.notFound ("Provider for " ++ w.tokenStr t ++ " not found")), s) := by
  show getStep w (resolveFuel w n) s t rid = _
  simp only [getStep]
  rw [h]

theorem ridTruthy_some {r : String} (hr : r ≠ "") :
    ridTruthy (some r) = true := by
  simp [ridTruthy, hr]

theorem cacheRead_request (w : World) (s : St) (t : Nat) (p : Provider)
    (rid : Option String) (hscope : p.scope = some Scope.request) :
    cacheRead w s t p rid =
      if ridTruthy rid = true then alookup s.requestInstances (rkey w rid t)
      else none := by
  simp only [cacheRead, hscope, Option.getD_some]
  rw [if_neg (by decide : ¬ Scope.request = Scope.singleton)]
  by_cases hrt : ridTruthy rid = true
  · rw [if_pos ⟨by trivial, hrt⟩, if_pos hrt]
  · rw [if_neg (fun hand => hrt hand.2), if_neg hrt]

theorem get_request_hit (w : World) (n : Nat) (s : St) (t : Nat)
    (rid : Option String) (p : Provider) (i : Nat)
    (hp : alookup s.providers t = some p)
    (hscope : p.scope = some Scope.request)
    (hrt : ridTruthy rid = true)
    (hhit : alookup s.requestInstances (rkey w rid t) = some i) :
    DIContainer.get w (n + 1) s t rid = (.ok i, s) := by
  show getStep w (resolveFuel w n) s t rid = _
  simp only [getStep]
  rw [hp]
  show (match cacheRead w s t p rid with
        | some inst => ((.ok inst : Except DIErr Nat), s)
        | none => cacheWrite w rid t p
            (buildSource w (resolveFuel w n) rid s p)) = _
  rw [cacheRead_request w s t p rid hscope, if_pos hrt, hhit]

theorem get_request_class_build (w : World) (n : Nat) (s : St) (t : Nat)
    (rid : Option String) (p : Provider)
    (hp : alookup s.providers t = some p)
    (hv : p.useValue = none) (hf : p.useFactory = none)
    (hc : cacheRead w s t p rid = none) :
    DIContainer.get w (n + 1) s t rid
      = cacheWrite w rid t p
          (createInstanceStep w (resolveFuel w n) rid s
            (p.useClass.getD p.provide)) := by
  show getStep w (resolveFuel w n) s t rid = _
  simp only [getStep]
  rw [hp]
  show (match cacheRead w s t p rid with
        | some inst => ((.ok inst : Except DIErr Nat), s)
        | none => cacheWrite w rid t p
            (buildSource w (resolveFuel w n) rid s p)) = _
  rw [hc]
  show cacheWrite w rid t p (buildSource w (resolveFuel w n) rid s p) = _
  simp only [buildSource]
  rw [hv]
  show cacheWrite w rid t p
      (match p.useFactory with
       | some f =>
         match resolveDepList (fun s' d => resolveFuel w n s' d rid) s p.inject with
         | (.ok deps, s₁) => ((.ok (f deps) : Except DIErr Nat), s₁)
         | (.error e, s₁) => (.error e, s₁)
       | none => createInstanceStep w (resolveFuel w n) rid s
           (p.useClass.getD p.provide)) = _
  rw [hf]

theorem get_request_class_ok (w : World) (n : Nat) (s : St) (t : Nat)
    (rid : Option String) (p : Provider) (i : Nat) (s' : St)
    (hp : alookup s.providers t = some p)
    (hscope : p.scope = some Scope.request)
    (hv : p.useValue = none) (hf : p.useFactory = none)
    (hc : cacheRead w s t p rid = none)
    (h : DIContainer.get w (n + 1) s t rid = (.ok i, s')) :
    s.nextId ≤ i ∧ s'.nextId = i + 1 ∧
    (ridTruthy rid = true →
      alookup s'.requestInstances (rkey w rid t) = some i) ∧
    (rid = none → s'.requestInstances = s.requestInstances) := by
  rw [get_request_class_build w n s t rid p hp hv hf hc] at h
  have hg : ∀ s₀ t₀, Evolves w rid s₀ (resolveFuel w n s₀ t₀ rid).2 :=
    fun s₀ t₀ => get_evolves w n s₀ t₀ rid
  rcases hci : createInstanceStep w (resolveFuel w n) rid s
      (p.useClass.getD p.provide) with ⟨res, s₁⟩
  rw [hci] at h
  cases res with
  | error e => simp [cacheWrite] at h
  | ok i0 =>
    have hfresh := createInstanceStep_fresh w rid (resolveFuel w n) hg s
      (p.useClass.getD p.provide) i0 s₁ hci
    simp only [cacheWrite, hscope, Option.getD_some] at h
    rw [if_neg (by decide : ¬ Scope.request = Scope.singleton)] at h
    by_cases hrt : ridTruthy rid = true
    · rw [if_pos ⟨by trivial, hrt⟩] at h
      simp only [Prod.mk.injEq, Except.ok.injEq] at h
      obtain ⟨hi, hs⟩ := h
      subst hi
      refine ⟨hfresh.1, ?_, ?_, ?_⟩
      · rw [← hs]; exact hfresh.2.1
      · intro _
        rw [← hs]
        simp [alookup_cons]
      · intro hnone
        rw [hnone] at hrt
        simp [ridTruthy] at hrt
    · rw [if_neg (fun hand => hrt hand.2)] at h
      simp only [Prod.mk.injEq, Except.ok.injEq] at h
      obtain ⟨hi, hs⟩ := h
      subst hi
      refine ⟨hfresh.1, ?_, ?_, ?_⟩
      · rw [← hs]; exact hfresh.2.1
      · intro hrt'; exact absurd hrt' hrt
      · intro hnone
        rw [← hs]
        have hEv := hfresh.2.2
        rw [hnone] at hEv
        exact hEv.2.2.2

theorem rkey_some (w : World) (r : String) (t : Nat) :
    rkey w (some r) t = r ++ "_" ++ w.tokenStr t := rfl

theorem clearRequestScope_lookup_none (rid : String) (s : St) (k : String)
    (hk : jsStartsWith k (rid ++ "_") = true) :
    alookup (DIContainer.clearRequestScope rid s).requestInstances k = none := by
  simp only [DIContainer.clearRequestScope]
  apply alookup_filter_eq_none
  intro v
  simp [hk]

/-- C1: for a provider registered with request lifetime, two `get` calls
with the same token and the same request id return the identical instance
(the second call is a pure cache hit); two calls with the same token but
different (fresh, underscore-free, non-empty) request ids return distinct
instances; and after `clearRequestScope(id)` a subsequent `get` with the
same token and id builds a new instance, distinct from the evicted one. -/
theorem request_scope_correctness (w : World) (s0 : St) (t : Nat)
    (p : Provider) (r1 r2 : String) (f1 f2 f3 g : Nat)
    (i1 i2 i3 : Nat) (s1 s2 s3 : St)
    (hp : alookup s0.providers t = some p)
    (hscope : p.scope = some Scope.request)
    (hv : p.useValue = none) (hf : p.useFactory = none)
    (hr1 : r1 ≠ "") (hr2 : r2 ≠ "") (hne : r1 ≠ r2)
    (hu1 : '_' ∉ r1.data) (hu2 : '_' ∉ r2.data)
    (hmiss1 : alookup s0.requestInstances (rkey w (some r1) t) = none)
    (hmiss2 : alookup s0.requestInstances (rkey w (some r2) t) = none)
    (h1 : DIContainer.get w f1 s0 t (some r1) = (.ok i1, s1))
    (h2 : DIContainer.get w f2 s1 t (some r2) = (.ok i2, s2))
    (h3 : DIContainer.get w f3 (DIContainer.clearRequestScope r1 s1) t (some r1)
            = (.ok i3, s3)) :
    DIContainer.get w (g + 1) s1 t (some r1) = (.ok i1, s1)
    ∧ i2 ≠ i1 ∧ i3 ≠ i1 := by
  have hEv1 : Evolves w (some r1) s0 s1 := by
    have := get_evolves w f1 s0 t (some r1)
    rw [h1] at this; exact this
  have hp1 : alookup s1.providers t = some p := by rw [hEv1.1]; exact hp
  obtain ⟨n1, rfl⟩ : ∃ n, f1 = n + 1 := by
    cases f1 with
    | zero => exfalso; simp [DIContainer.get, resolveFuel] at h1
    | succ n => exact ⟨n, rfl⟩
  have hc1 : cacheRead w s0 t p (some r1) = none := by
    rw [cacheRead_request w s0 t p (some r1) hscope,
      if_pos (ridTruthy_some hr1)]
    exact hmiss1
  obtain ⟨hfr1, hnext1, hhit1, _⟩ :=
    get_request_class_ok w n1 s0 t (some r1) p i1 s1 hp hscope hv hf hc1 h1
  have hlook1 := hhit1 (ridTruthy_some hr1)
  refine ⟨?_, ?_, ?_⟩
  · exact get_request_hit w g s1 t (some r1) p i1 hp1 hscope
      (ridTruthy_some hr1) hlook1
  · obtain ⟨n2, rfl⟩ : ∃ n, f2 = n + 1 := by
      cases f2 with
      | zero => exfalso; simp [DIContainer.get, resolveFuel] at h2
      | succ n => exact ⟨n, rfl⟩
    have hmiss2' : alookup s1.requestInstances (rkey w (some r2) t) = none := by
      by_cases hch : alookup s1.requestInstances (rkey w (some r2) t)
          = alookup s0.requestInstances (rkey w (some r2) t)
      · rw [hch]; exact hmiss2
      · exfalso
        obtain ⟨d, hd⟩ := hEv1.2.2.2 _ hch
        rw [rkey_some] at hd
        exact hne (key_rid_inj w r2 r1 t d hu2 hu1 hd).symm
    have hc2 : cacheRead w s1 t p (some r2) = none := by
      rw [cacheRead_request w s1 t p (some r2) hscope,
        if_pos (ridTruthy_some hr2)]
      exact hmiss2'
    obtain ⟨hfr2, _, _, _⟩ :=
      get_request_class_ok w n2 s1 t (some r2) p i2 s2 hp1 hscope hv hf hc2 h2
    omega
  · obtain ⟨n3, rfl⟩ : ∃ n, f3 = n + 1 := by
      cases f3 with
      | zero => exfalso; simp [DIContainer.get, resolveFuel] at h3
      | succ n => exact ⟨n, rfl⟩
    have hpc : alookup (DIContainer.clearRequestScope r1 s1).providers t
        = some p := hp1
    have hmiss3 : alookup
        (DIContainer.clearRequestScope r1 s1).requestInstances
        (rkey w (some r1) t) = none := by
      apply clearRequestScope_lookup_none
      rw [rkey_some]
      exact jsStartsWith_key r1 (w.tokenStr t)
    have hc3 : cacheRead w (DIContainer.clearRequestScope r1 s1) t p (some r1)
        = none := by
      rw [cacheRead_request _ _ _ _ _ hscope, if_pos (ridTruthy_some hr1)]
      exact hmiss3
    obtain ⟨hfr3, _, _, _⟩ :=
      get_request_class_ok w n3 (DIContainer.clearRequestScope r1 s1) t
        (some r1) p i3 s3 hpc hscope hv hf hc3 h3
    have : (DIContainer.clearRequestScope r1 s1).nextId = s1.nextId := rfl
    omega

theorem request_scope_correctness_witness :
    DIContainer.get w0 (0 + 1) (⟨[(0, pReq0)], [], [("a_T0", 0)], 1⟩ : St) 0
        (some "a")
      = (.ok 0, (⟨[(0, pReq0)], [], [("a_T0", 0)], 1⟩ : St))
    ∧ (1 : Nat) ≠ 0 ∧ (1 : Nat) ≠ 0 :=
  request_scope_correctness w0 stReq0 0 pReq0 "a" "b" 2 2 2 0 0 1 1
    ⟨[(0, pReq0)], [], [("a_T0", 0)], 1⟩
    ⟨[(0, pReq0)], [], [("b_T0", 1), ("a_T0", 0)], 2⟩
    ⟨[(0, pReq0)], [], [("a_T0", 1)], 2⟩
    rfl rfl rfl rfl (by decide) (by decide) (by decide) (by decide) (by decide)
    rfl rfl rfl rfl rfl

/-- C10: for a class-backed provider registered with REQUEST scope,
`container.get(token)` without a request id constructs a fresh instance on
every call (the two instances are distinct and each is newly allocated),
stores nothing in the request cache (it is unchanged), and leaves the
singleton cache unchanged at the resolved token — exactly a transient
resolution. -/
theorem request_scope_without_id_transient (w : World) (s0 : St) (t : Nat)
    (p : Provider) (f1 f2 : Nat) (i1 i2 : Nat) (s1 s2 : St)
    (hp : alookup s0.providers t = some p)
    (hscope : p.scope = some Scope.request)
    (hv : p.useValue = none) (hf : p.useFactory = none)
    (h1 : DIContainer.get w f1 s0 t none = (.ok i1, s1))
    (h2 : DIContainer.get w f2 s1 t none = (.ok i2, s2)) :
    i2 ≠ i1
    ∧ s0.nextId ≤ i1 ∧ i1 < s1.nextId
    ∧ s1.nextId ≤ i2 ∧ i2 < s2.nextId
    ∧ s1.requestInstances = s0.requestInstances
    ∧ s2.requestInstances = s1.requestInstances
    ∧ alookup s1.instances t = alookup s0.instances t
    ∧ alookup s2.instances t = alookup s1.instances t := by
  have hEv1 : Evolves w none s0 s1 := by
    have := get_evolves w f1 s0 t none
    rw [h1] at this; exact this
  have hEv2 : Evolves w none s1 s2 := by
    have := get_evolves w f2 s1 t none
    rw [h2] at this; exact this
  have hp1 : alookup s1.providers t = some p := by rw [hEv1.1]; exact hp
  have hinst : ∀ (sa sb : St), Evolves w none sa sb →
      alookup sa.providers t = some p →
      alookup sb.instances t = alookup sa.instances t := by
    intro sa sb hEv hpa
    by_cases hch : alookup sb.instances t = alookup sa.instances t
    · exact hch
    · exfalso
      obtain ⟨q, hq, hsc⟩ := hEv.2.2.1 t hch
      rw [hpa] at hq
      cases hq
      rw [hscope] at hsc
      simp at hsc
  obtain ⟨n1, rfl⟩ : ∃ n, f1 = n + 1 := by
    cases f1 with
    | zero => exfalso; simp [DIContainer.get, resolveFuel] at h1
    | succ n => exact ⟨n, rfl⟩
  obtain ⟨n2, rfl⟩ : ∃ n, f2 = n + 1 := by
    cases f2 with
    | zero => exfalso; simp [DIContainer.get, resolveFuel] at h2
    | succ n => exact ⟨n, rfl⟩
  have hcnone : ∀ (sa : St), cacheRead w sa t p none = none := by
    intro sa
    rw [cacheRead_request w sa t p none hscope]
    simp [ridTruthy]
  obtain ⟨hfr1, hnext1, _, hreq1⟩ :=
    get_request_class_ok w n1 s0 t none p i1 s1 hp hscope hv hf (hcnone s0) h1
  obtain ⟨hfr2, hnext2, _, hreq2⟩ :=
    get_request_class_ok w n2 s1 t none p i2 s2 hp1 hscope hv hf (hcnone s1) h2
  refine ⟨by omega, hfr1, by omega, hfr2, by omega, hreq1 rfl, hreq2 rfl,
    hinst s0 s1 hEv1 hp, hinst s1 s2 hEv2 hp1⟩

theorem request_scope_without_id_transient_witness :
    (1 : Nat) ≠ 0
    ∧ (0 : Nat) ≤ 0 ∧ (0 : Nat) < 1
    ∧ (1 : Nat) ≤ 1 ∧ (1 : Nat) < 2
    ∧ (⟨[(0, pReq0)], [], [], 1⟩ : St).requestInstances = stReq0.requestInstances
    ∧ (⟨[(0, pReq0)], [], [], 2⟩ : St).requestInstances
        = (⟨[(0, pReq0)], [], [], 1⟩ : St).requestInstances
    ∧ alookup (⟨[(0, pReq0)], [], [], 1⟩ : St).instances 0
        = alookup stReq0.instances 0
    ∧ alookup (⟨[(0, pReq0)], [], [], 2⟩ : St).instances 0
        = alookup (⟨[(0, pReq0)], [], [], 1⟩ : St).instances 0 :=
  request_scope_without_id_transient w0 stReq0 0 pReq0 2 2 0 1
    ⟨[(0, pReq0)], [], [], 1⟩ ⟨[(0, pReq0)], [], [], 2⟩
    rfl rfl rfl rfl rfl rfl

/-- C5 counterexample: token `0` is a constructible type whose constructor
dependencies (none) are all resolvable — `createInstance` succeeds on it —
yet with no registered descriptor, `DIContainer.get` still fails with the
provider-not-found error instead of auto-constructing it. -/
theorem unregistered_constructible_token_fails :
    DIContainer.createInstance w0 1 none st0 0 = (.ok 0, (⟨[], [], [], 1⟩ : St))
    ∧ DIContainer.get w0 3 st0 0 none
        = (.error (.notFound "Provider for T0 not found"), st0) :=
  ⟨rfl, rfl⟩

/-- C5 amended: container resolution fails with the provider-not-found
error whenever no descriptor is registered for the token — regardless of
whether the token is a constructible type with resolvable dependencies;
`DIContainer.get` has no auto-construction fallback for unregistered
tokens. -/
theorem provider_not_found_no_fallback (w : World) (fuel : Nat) (s : St)
    (t : Nat) (rid : Option String)
    (h : alookup s.providers t = none) :
    DIContainer.get w (fuel + 1) s t rid
      = (.error (.notFound ("Provider for " ++ w.tokenStr t ++ " not found")), s) :=
  get_unregistered w fuel s t rid h

theorem provider_not_found_no_fallback_witness :
    DIContainer.get w0 (2 + 1) st0 5 none
      = (.error (.notFound ("Provider for " ++ w0.tokenStr 5 ++ " not found")), st0) :=
  provider_not_found_no_fallback w0 2 st0 5 none rfl

/-!  Dispatcher claims: cleanup, filter selection, parameter binding,
validation error mapping.  -/

/-- C3: the per-route handler runs request-scope cache eviction for its
request id on every exit path (success, handler exception, pipe validation
failure), so no request-cache entry keyed under this request id survives
the end of the dispatch. -/
theorem request_cache_cleanup (methodFilters classFilters : List ExceptionFilter)
    (globalFilter : Option ExceptionFilter) (params : ParamsArray)
    (pipes : List Pipe) (handler : Handler) (req : Req) (rid : String)
    (s : St) :
    ((routeHandlerRun methodFilters classFilters globalFilter params pipes
        handler req rid s).2).requestInstances.all
      (fun kv => ! jsStartsWith kv.1 (rid ++ "_")) = true := by
  have hclear : ∀ s' : St,
      ((DIContainer.clearRequestScope rid s').requestInstances).all
        (fun kv => ! jsStartsWith kv.1 (rid ++ "_")) = true := by
    intro s'
    simp only [DIContainer.clearRequestScope, List.all_eq_true]
    intro kv hkv
    exact (List.mem_filter.mp hkv).2
  unfold routeHandlerRun
  cases hda : dispatchAttempt params pipes handler req with
  | ok v => exact hclear s
  | error e => exact hclear s

/-- C2: when stage 4 (binding/pipes) or stage 5 (handler invocation)
raises, the response is written by exactly the one selected filter, chosen
as the first available of method-level, class-level, process-wide, and the
built-in default; the default responds status 500 with the generic
`Internal server error` message. -/
theorem filter_selection_priority (methodFilters classFilters : List ExceptionFilter)
    (globalFilter : Option ExceptionFilter) (params : ParamsArray)
    (pipes : List Pipe) (handler : Handler) (req : Req) (rid : String)
    (s : St) (e : JsErr)
    (hfail : dispatchAttempt params pipes handler req = .error e) :
    (routeHandlerRun methodFilters classFilters globalFilter params pipes
        handler req rid s).1
      = selectFilter methodFilters classFilters globalFilter e
    ∧ (∀ f fs, methodFilters = f :: fs →
        selectFilter methodFilters classFilters globalFilter e = f e)
    ∧ (∀ f fs, methodFilters = [] → classFilters = f :: fs →
        selectFilter methodFilters classFilters globalFilter e = f e)
    ∧ (∀ f, methodFilters = [] → classFilters = [] → globalFilter = some f →
        selectFilter methodFilters classFilters globalFilter e = f e)
    ∧ (methodFilters = [] → classFilters = [] → globalFilter = none →
        selectFilter methodFilters classFilters globalFilter = defaultFilter
        ∧ (defaultFilter e).status = 500
        ∧ (defaultFilter e).body
            = .errObj 500 "Internal server error" (errMessage e)) := by
  refine ⟨?_, ?_, ?_, ?_, ?_⟩
  · unfold routeHandlerRun
    rw [hfail]
  · intro f fs hm; subst hm; rfl
  · intro f fs hm hc; subst hm; subst hc; rfl
  · intro f hm hc hg; subst hm; subst hc; subst hg; rfl
  · intro hm hc hg; subst hm; subst hc; subst hg; exact ⟨rfl, rfl, rfl⟩

theorem filter_selection_priority_witness :
    (routeHandlerRun [] [] none [] [] (fun _ => .error (.jsError "boom"))
        ⟨.undefined, [], []⟩ "r" st0).1
      = selectFilter [] [] none (.jsError "boom")
    ∧ (defaultFilter (.jsError "boom")).status = 500 := by
  have h := filter_selection_priority [] [] none [] []
    (fun _ => .error (.jsError "boom")) ⟨.undefined, [], []⟩ "r" st0
    (.jsError "boom") rfl
  exact ⟨h.1, (h.2.2.2.2 rfl rfl rfl).2.1⟩

theorem buildArgs_ok_spec (pipes : List Pipe) (req : Req) :
    ∀ (ps : List ParamMetadata) (args : List JsValue),
      buildArgs pipes req ps = .ok args →
      args.length = ps.length ∧
      ∀ k (hk : k < ps.length),
        bindOne pipes req (ps.get ⟨k, hk⟩) = .ok (args.getD k .undefined) := by
  intro ps
  induction ps with
  | nil =>
    intro args h
    simp only [buildArgs] at h
    cases h
    exact ⟨rfl, fun k hk => absurd hk (by simp)⟩
  | cons p rest ih =>
    intro args h
    simp only [buildArgs] at h
    cases hb : bindOne pipes req p with
    | error e => rw [hb] at h; cases h
    | ok v =>
      rw [hb] at h
      cases hrest : buildArgs pipes req rest with
      | error e => rw [hrest] at h; cases h
      | ok vs =>
        rw [hrest] at h
        cases h
        obtain ⟨hlen, hspec⟩ := ih vs hrest
        refine ⟨by simp [hlen], ?_⟩
        intro k hk
        cases k with
        | zero => simpa using hb
        | succ k' =>
          have hk' : k' < rest.length := by simpa using hk
          simpa using hspec k' hk'

/-- C6 counterexample: with parameter annotations at positions 0 and 2 and
no annotation at position 1, the dispatcher builds a two-element argument
list, so the handler's position 1 receives the value bound for declared
position 2 (`"42"`), not `undefined` — the bound values are shifted left
across the gap. -/
theorem param_gap_shifts_bindings :
    buildArgs [] gapReq (getParameterMetadata gapParams)
        = .ok [.strV "B", .strV "42"]
    ∧ [JsValue.strV "B", .strV "42"].getD 1 .undefined = .strV "42"
    ∧ isUndefined ([JsValue.strV "B", .strV "42"].getD 1 .undefined) = false :=
  ⟨rfl, rfl, rfl⟩

/-- C6 amended: the handler is invoked with the bound, pipe-transformed
values of the annotated positions in increasing declared-position order,
compacted — the k-th annotated parameter's value arrives at argument
position k, and argument positions past the end of that list receive
`undefined`.  Annotated values therefore sit at their declared positions
only when no unannotated gap precedes them; a gap shifts later bound
values left instead of leaving `undefined` in the gap. -/
theorem param_binding_compaction (sparse : ParamsArray) (pipes : List Pipe)
    (req : Req) (handler : Handler) (args : List JsValue)
    (h : buildArgs pipes req (getParameterMetadata sparse) = .ok args) :
    args.length = (getParameterMetadata sparse).length
    ∧ (∀ k (hk : k < (getParameterMetadata sparse).length),
        bindOne pipes req ((getParameterMetadata sparse).get ⟨k, hk⟩)
          = .ok (args.getD k .undefined))
    ∧ (∀ k, args.length ≤ k → args.getD k .undefined = .undefined)
    ∧ dispatchAttempt sparse pipes handler req = handler args := by
  obtain ⟨hlen, hspec⟩ := buildArgs_ok_spec pipes req _ args h
  refine ⟨hlen, hspec, ?_, ?_⟩
  · intro k hk
    exact List.getD_eq_default _ _ hk
  · unfold dispatchAttempt
    rw [h]

theorem param_binding_compaction_witness :
    [JsValue.strV "B", .strV "42"].length
        = (getParameterMetadata gapParams).length
    ∧ dispatchAttempt gapParams [] (fun _ => .ok (.obj [])) gapReq
        = (fun _ : List JsValue => (.ok (.obj []) : Except JsErr JsValue))
            [JsValue.strV "B", .strV "42"] := by
  have h := param_binding_compaction gapParams [] gapReq
    (fun _ => .ok (.obj [])) [.strV "B", .strV "42"] rfl
  exact ⟨h.1, h.2.2.2⟩

/-- C7 counterexample: a request whose pipe raises a ValidationException,
dispatched with no method, class, or process-wide filter, receives status
500 (an internal-server-error response, in the 5xx class), not a
4xx-class client error. -/
theorem validation_failure_gets_500 :
    (routeHandlerRun [] [] none [some ⟨0, .body, none, none⟩]
        [failingValidationPipe] (fun _ => .ok .null) gapReq "r" st0).1.status
      = 500
    ∧ (routeHandlerRun [] [] none [some ⟨0, .body, none, none⟩]
        [failingValidationPipe] (fun _ => .ok .null) gapReq "r" st0).1.status
        / 100 = 5 :=
  ⟨rfl, rfl⟩

/-- C7 amended: a ValidationException raised during parameter
binding/pipes reaches the exception-filter stage like any other error;
with no method-level, class-level, or process-wide filter configured, the
built-in default filter responds with status 500 and the generic
`Internal server error` message, carrying the violation list only inside
the error string — a 4xx response requires a custom filter. -/
theorem validation_error_default_filter_500 (params : ParamsArray)
    (pipes : List Pipe) (handler : Handler) (req : Req) (rid : String)
    (s : St) (msgs : List String)
    (hfail : dispatchAttempt params pipes handler req
        = .error (.validationEx msgs)) :
    (routeHandlerRun [] [] none params pipes handler req rid s).1
      = ⟨500, .errObj 500 "Internal server error"
          ("Validation failed: " ++ String.intercalate ", " msgs)⟩ := by
  unfold routeHandlerRun
  rw [hfail]
  rfl

theorem validation_error_default_filter_500_witness :
    (routeHandlerRun [] [] none [some ⟨0, ParamType.body, none, none⟩]
        [failingValidationPipe] (fun _ => .ok .null) gapReq "r" st0).1
      = ⟨500, .errObj 500 "Internal server error"
          ("Validation failed: " ++ String.intercalate ", "
            ["name: Field is required",
             "email: Value must be a valid email"])⟩ :=
  validation_error_default_filter_500 [some ⟨0, ParamType.body, none, none⟩]
    [failingValidationPipe] (fun _ => .ok .null) gapReq "r" st0
    ["name: Field is required", "email: Value must be a valid email"] rfl

/-!  Validation, module loading, metadata registry claims.  -/

/-- C8 (code bug): `ValidationPipe.transform` on an empty input against a
DTO whose two plain fields carry validation rules returns the copied
object with no exception — `validate` iterates only the prototype's own
property names (here just `"constructor"`), which never include plain
field declarations, so the attached rules are never run — even though the
`IsRequired` rule attached to each declared field fails on the copied
value (`undefined`), and the spec requires a `ValidationException` listing
both failures. -/
theorem validation_pipe_skips_field_rules :
    ValidationPipe.transform (.obj []) (some (.userClass testUserDto))
        = .ok (.obj [])
    ∧ ValidationPipe.validate testUserDto
        (ValidationPipe.plainToClass testUserDto (.obj [])) = []
    ∧ IsRequired (readProp testUserDto
        (ValidationPipe.plainToClass testUserDto (.obj [])) "name")
        = .strR "Field is required"
    ∧ IsRequired (readProp testUserDto
        (ValidationPipe.plainToClass testUserDto (.obj [])) "email")
        = .strR "Field is required"
    ∧ ((alookup testUserDto.rules "name").getD []).length = 2
    ∧ ((alookup testUserDto.rules "email").getD []).length = 1 :=
  ⟨rfl, rfl, rfl, rfl, rfl, rfl⟩

/-- C4 (code bug): loading the diamond module graph (root `0` imports `1`
and `2`, both importing the shared module `3`) through `createApp`'s
module handling registers the shared module's provider `7` and controller
`8` twice in the global registries — `loadModule` tracks no visited
modules, so the shared module is flattened once per import path, not
exactly once. -/
theorem diamond_import_double_registration :
    (createAppLoadModules diamondWorld 9 0 ⟨[], []⟩).providers = [7, 7]
    ∧ (createAppLoadModules diamondWorld 9 0 ⟨[], []⟩).controllers = [8, 8]
    ∧ (createAppLoadModules diamondWorld 9 0 ⟨[], []⟩).providers.count 7 = 2
    ∧ (createAppLoadModules diamondWorld 9 0 ⟨[], []⟩).controllers.count 8 = 2 := by
  refine ⟨rfl, rfl, ?_, ?_⟩ <;> decide

/-- C9 counterexample: applying `@UseGuards` a second time to the same
class+method key overwrites the guards metadata — the previously stored
guard `1` is discarded, refuting "applying a further annotation never
discards metadata previously stored for that same key". -/
theorem reapplied_guards_discard_previous :
    getGuards 7 (some "m") (UseGuards [1] 7 (some "m") ⟨[]⟩) = [1]
    ∧ getGuards 7 (some "m")
        (UseGuards [2] 7 (some "m") (UseGuards [1] 7 (some "m") ⟨[]⟩)) = [2]
    ∧ (getGuards 7 (some "m")
        (UseGuards [2] 7 (some "m")
          (UseGuards [1] 7 (some "m") ⟨[]⟩))).contains 1 = false := by
  refine ⟨rfl, rfl, ?_⟩
  decide

/-- C9 amended: the metadata kinds are stored under distinct keys, so an
annotation never discards stored metadata of a different kind or of a
different declaration, and route annotations append to the class's
accumulated route list; but re-applying a guard, filter, or middleware
annotation to the same declaration key replaces that kind's previously
stored list (last registration wins) rather than appending. -/
theorem metadata_additivity_partial (st : MetaStore) (t : Nat)
    (pk : Option String) (fs : List Nat) (method path k : String) :
    (getRoutes t (routeDecoratorApply method path t k st)
        = getRoutes t st ++ [⟨method, path, k⟩])
    ∧ getGuards t pk (UseGuards fs t pk st) = fs
    ∧ getFilters t pk (UseFilters fs t pk st) = fs
    ∧ getMiddleware t pk (UseMiddleware fs t pk st) = fs
    ∧ (∀ mk t' pk', (mk, t', pk') ≠ (MetaKey.guardsKey, t, pk) →
        getMetadata mk t' pk' (UseGuards fs t pk st)
          = getMetadata mk t' pk' st)
    ∧ (∀ mk t' pk', (mk, t', pk') ≠ (MetaKey.filtersKey, t, pk) →
        getMetadata mk t' pk' (UseFilters fs t pk st)
          = getMetadata mk t' pk' st)
    ∧ (∀ mk t' pk', (mk, t', pk') ≠ (MetaKey.middlewareKey, t, pk) →
        getMetadata mk t' pk' (UseMiddleware fs t pk st)
          = getMetadata mk t' pk' st)
    ∧ (∀ mk t' pk', (mk, t', pk') ≠ (MetaKey.routesKey, t, none) →
        getMetadata mk t' pk' (routeDecoratorApply method path t k st)
          = getMetadata mk t' pk' st) := by
  refine ⟨?_, ?_, ?_, ?_, ?_, ?_, ?_, ?_⟩
  · cases hm : getMetadata .routesKey t none st with
    | none =>
      simp [getRoutes, routeDecoratorApply, getMetadata, defineMetadata,
        alookup, hm]
    | some v =>
      cases v with
      | routesV rs =>
        simp [getRoutes, routeDecoratorApply, getMetadata, defineMetadata,
          alookup, hm]
      | fnsV gs =>
        simp [getRoutes, routeDecoratorApply, getMetadata, defineMetadata,
          alookup, hm]
  · simp [getGuards, UseGuards, getMetadata, defineMetadata, alookup]
  · simp [getFilters, UseFilters, getMetadata, defineMetadata, alookup]
  · simp [getMiddleware, UseMiddleware, getMetadata, defineMetadata, alookup]
  · intro mk t' pk' hne
    show alookup (((MetaKey.guardsKey, t, pk), MetaVal.fnsV fs) :: st.entries)
        (mk, t', pk') = getMetadata mk t' pk' st
    rw [alookup_cons, if_neg (fun h => hne h.symm)]
    rfl
  · intro mk t' pk' hne
    show alookup (((MetaKey.filtersKey, t, pk), MetaVal.fnsV fs) :: st.entries)
        (mk, t', pk') = getMetadata mk t' pk' st
    rw [alookup_cons, if_neg (fun h => hne h.symm)]
    rfl
  · intro mk t' pk' hne
    show alookup
        (((MetaKey.middlewareKey, t, pk), MetaVal.fnsV fs) :: st.entries)
        (mk, t', pk') = getMetadata mk t' pk' st
    rw [alookup_cons, if_neg (fun h => hne h.symm)]
    rfl
  · intro mk t' pk' hne
    show alookup (((MetaKey.routesKey, t, none),
          MetaVal.routesV (getRoutes t st ++ [⟨method, path, k⟩]))
            :: st.entries)
        (mk, t', pk') = getMetadata mk t' pk' st
    rw [alookup_cons, if_neg (fun h => hne h.symm)]
    rfl

theorem metadata_additivity_partial_witness :
    getRoutes 3 (routeDecoratorApply "get" "/x" 3 "h" ⟨[]⟩)
        = getRoutes 3 (⟨[]⟩ : MetaStore) ++ [⟨"get", "/x", "h"⟩]
    ∧ getMetadata .routesKey 3 none
        (UseGuards [9] 3 (some "h")
          (routeDecoratorApply "get" "/x" 3 "h" ⟨[]⟩))
        = getMetadata .routesKey 3 none
            (routeDecoratorApply "get" "/x" 3 "h" ⟨[]⟩) := by
  have h1 := metadata_additivity_partial ⟨[]⟩ 3 (some "h") [9] "get" "/x" "h"
  have h2 := metadata_additivity_partial
    (routeDecoratorApply "get" "/x" 3 "h" ⟨[]⟩) 3 (some "h") [9] "get" "/x" "h"
  exact ⟨h1.1, h2.2.2.2.2.1 .routesKey 3 none (by decide)⟩
